import Mathlib

/-!
Verification development for the `httrs` terminal HTTP client
(`src/main.rs`). The interactive loop, the application state and the
request normalization are shallowly embedded below; the network stack
(`reqwest`) and the JSON formatter (`jsonxf`) are third-party calls and
are modelled as oracles `net : String → Option String` (the body text a
GET to a target returns, `none` = transport error) and
`fmt : String → Option String` (the pretty-printed form, `none` =
formatting error).
-/

/-- `enum InputMode { Normal, Editing }` from main.rs. -/
inductive InputMode where
  | Normal
  | Editing
deriving DecidableEq, Repr

/-- The key codes the loop inspects. `crossterm::event::KeyCode` has more
variants (arrows, function keys, ...); all of them fall into the `_ => {}`
arms of `run_app`, so they are collapsed into the single constructor
`other`. -/
inductive KeyCode where
  | Char (c : Char)
  | Enter
  | Tab
  | Backspace
  | Esc
  | other
deriving DecidableEq, Repr

/-- `struct App` from main.rs. `current_window` is an `i32` in the source;
it is only ever changed by the Tab arm, which keeps it in `[0, 5)` from
its initial value `1`, so plain `Int` (no 32-bit wrap) is faithful. -/
structure App where
  response : String
  input_mode : InputMode
  url : String
  logs : List String
  current_window : Int
deriving DecidableEq, Repr

/-- `impl Default for App` from main.rs. -/
def App.default : App :=
  { response := ""
    input_mode := .Normal
    url := ""
    logs := []
    current_window := 1 }

/-- Rust's `str::starts_with(pat)` on string slices: the pattern's
characters are a prefix of the string's characters. -/
def strStartsWith (s pat : String) : Bool :=
  pat.toList.isPrefixOf s.toList

/-- Rust's `String::pop`: remove the last character (the returned
`Option<char>` is discarded by the caller); no-op on the empty string. -/
def strPop (s : String) : String :=
  String.mk s.toList.dropLast

/-- The URL normalization inside `get_request` (main.rs lines 240-245):
`if !url.starts_with("http") { "https://" + url } else { url }`. -/
def normalize_target (url : String) : String :=
  if ¬ strStartsWith url "http" then "https://" ++ url else url

/-- Result of `get_request`: `Ok(formatted)`, the `?`-propagated `reqwest`
transport error, or the abort (Rust panic) on a `jsonxf` format error. -/
inductive ReqOutcome where
  | ok (body : String)
  | transportErr
  | formatAbort
deriving DecidableEq, Repr

/-- `async fn get_request(url: &String)` from main.rs, with the two
third-party calls as oracles: builds `new_url` by prefix check, GETs it
(`none` = transport error, propagated with `?`), then pretty-prints the
body (`none` = format error, which the source turns into a panic). -/
def get_request (net fmt : String → Option String) (url : String) : ReqOutcome :=
  match net (normalize_target url) with
  | none => .transportErr
  | some body =>
    match fmt body with
    | none => .formatAbort
    | some formatted => .ok formatted

/-- Externally visible actions of one loop iteration, in order: a push
onto `app.logs` and the HTTP GET issued to its target. -/
inductive Eff where
  | logAppend (s : String)
  | httpGet (target : String)
deriving DecidableEq, Repr

/-- Result of dispatching one key event in `run_app`: continue the loop
with the mutated state, `return Ok(())` (the `'q'` arm), or abort the
process (the `panic!` on a failed request). Each carries the trace of
external actions the arm performed, in order. -/
inductive StepRes where
  | cont (a : App) (trace : List Eff)
  | quitLoop (trace : List Eff)
  | fatal (trace : List Eff)
deriving DecidableEq, Repr

/-- The trace of external actions of a step result. -/
def StepRes.trace : StepRes → List Eff
  | .cont _ t => t
  | .quitLoop t => t
  | .fatal t => t

/-- The Tab arm's window arithmetic (main.rs lines 95-100):
`current_window += 1; if current_window == 5 { current_window = 0 }`. -/
def tabNext (w : Int) : Int :=
  if w + 1 = 5 then 0 else w + 1

/-- One iteration of the `match app.input_mode` dispatch in `run_app`
(main.rs lines 80-114), for one key event. The `Enter` arm pushes
"Fetching results...", awaits `get_request`, panics on `Err`, stores the
body and pushes "Done". -/
def step (net fmt : String → Option String) (a : App) (k : KeyCode) : StepRes :=
  match a.input_mode with
  | .Normal =>
    match k with
    | .Char c =>
      if c = 'i' then .cont { a with input_mode := .Editing } []
      else if c = 'q' then .quitLoop []
      else .cont a []
    | .Enter =>
      match get_request net fmt a.url with
      | .ok body =>
          .cont { a with
                    response := body
                    logs := a.logs ++ ["Fetching results...", "Done"] }
                [.logAppend "Fetching results...",
                 .httpGet (normalize_target a.url),
                 .logAppend "Done"]
      | _ =>
          .fatal [.logAppend "Fetching results...",
                  .httpGet (normalize_target a.url)]
    | .Tab => .cont { a with current_window := tabNext a.current_window } []
    | _ => .cont a []
  | .Editing =>
    match k with
    | .Char c => .cont { a with url := a.url.push c } []
    | .Backspace => .cont { a with url := strPop a.url } []
    | .Esc => .cont { a with input_mode := .Normal } []
    | _ => .cont a []

/-- Result of running the loop on a finite list of key events: the input
was exhausted with the loop still live (blocked in `event::read`), the
loop returned `Ok(())` via `'q'`, or the process aborted in the `Enter`
arm. -/
inductive RunRes where
  | pending (a : App)
  | quitOk
  | aborted
deriving DecidableEq, Repr

/-- `run_app` (main.rs lines 77-115) on a finite stream of key events. -/
def run_app (net fmt : String → Option String) (a : App) : List KeyCode → RunRes
  | [] => .pending a
  | k :: ks =>
    match step net fmt a k with
    | .cont a1 _ => run_app net fmt a1 ks
    | .quitLoop _ => .quitOk
    | .fatal _ => .aborted

/-- The four terminal-restoration actions `main` performs after `run_app`
returns (main.rs lines 57-64). -/
inductive TermAction where
  | disableRawMode
  | leaveAlternateScreen
  | disableMouseCapture
  | showCursor
deriving DecidableEq, Repr

/-- The restoration actions `main` has executed, as a function of how the
loop ended: they run exactly once when `run_app` returns (the `'q'` path);
a pending loop has not reached them yet, and the panic path unwinds past
them (the known defect the spec flags). -/
def main_teardown : RunRes → List TermAction
  | .quitOk => [.disableRawMode, .leaveAlternateScreen,
                .disableMouseCapture, .showCursor]
  | .pending _ => []
  | .aborted => []

/-- States reachable from `App::default()` by iterating the loop. -/
inductive Reachable (net fmt : String → Option String) : App → Prop
  | init : Reachable net fmt App.default
  | next {a a1 : App} {k : KeyCode} {t : List Eff} :
      Reachable net fmt a → step net fmt a k = .cont a1 t →
      Reachable net fmt a1

/-- `tui::layout::Rect` (u16 fields; sizes stay small, `Nat` is used). -/
structure Rect where
  x : Nat
  y : Nat
  width : Nat
  height : Nat
deriving DecidableEq, Repr

/-- The two foreground colors `ui` uses. -/
inductive Color where
  | Cyan
  | Yellow
deriving DecidableEq, Repr

/-- `tui::style::Style`, reduced to the only attribute `ui` sets: the
foreground color (`Style::default()` leaves it unset). -/
structure Style where
  fg : Option Color
deriving DecidableEq, Repr

/-- `Style::default()`. -/
def Style.default : Style := { fg := none }

/-- `fn get_style(current_window, this_window, input_mode)` from main.rs:
highlight Cyan (Normal) or Yellow (Editing) when this window is the
current one, default style otherwise. -/
def get_style (current_window : Int) (this_window : Int)
    (input_mode : InputMode) : Style :=
  if current_window = this_window then
    match input_mode with
    | .Normal => { fg := some .Cyan }
    | .Editing => { fg := some .Yellow }
  else Style.default

/-- The inline highlight expression `ui` repeats for the Method (0),
Place Holder (2), Response (3) and Logs (4) widgets; textually identical
to `get_style`'s body. -/
def windowStyle (current_window : Int) (this_window : Int)
    (input_mode : InputMode) : Style :=
  if current_window = this_window then
    match input_mode with
    | .Normal => { fg := some .Cyan }
    | .Editing => { fg := some .Yellow }
  else Style.default

/-- Model of `tui::layout::Layout::split` with `Constraint::Percentage`
constraints: one sub-rectangle per constraint, laid out along the given
direction, each taking its percentage of the area (the tui solver's exact
rounding is irrelevant to the claims; the count of returned rectangles —
one per constraint — is the property `ui`'s indexing relies on). -/
def layoutSplit (vertical : Bool) (area : Rect) (off : Nat) :
    List Nat → List Rect
  | [] => []
  | p :: ps =>
    let len := if vertical then p * area.height / 100 else p * area.width / 100
    (if vertical then { area with y := area.y + off, height := len }
     else { area with x := area.x + off, width := len })
      :: layoutSplit vertical area (off + len) ps

/-- `.margin(1)` on the outer layout: shrink the frame area by 1 cell on
every side. -/
def withMargin (m : Nat) (r : Rect) : Rect :=
  { x := r.x + m, y := r.y + m, width := r.width - 2 * m,
    height := r.height - 2 * m }

/-- A widget as `ui` hands it to `f.render_widget`: its title, its text
content (for the logs `List`, the rendered items), and its style. -/
inductive Widget where
  | paragraph (title : String) (text : String) (style : Style)
  | blockOnly (title : String) (style : Style)
  | listWidget (title : String) (items : List String) (style : Style)
deriving DecidableEq, Repr

/-- Everything one call of `ui` draws: the widgets with their target
rectangles, in render order, and the cursor position set via
`f.set_cursor` (visible in Editing mode only). -/
structure RenderOut where
  widgets : List (Widget × Rect)
  cursor : Option (Nat × Nat)
deriving DecidableEq, Repr

/-- `fn ui(f, app)` from main.rs (lines 120-226). The layout chunks are
indexed as in the source (`chunks[0]`, `chunks[1]`, ...) through
`List.get?`, so an out-of-range index — the way this code could panic —
surfaces as `none`. `app.url.width()` (unicode display width) is modelled
as the character count. -/
def ui (a : App) (size : Rect) : Option RenderOut := do
  let chunks := layoutSplit true (withMargin 1 size) 0 [5, 90]
  let c0 ← chunks.get? 0
  let c1 ← chunks.get? 1
  let top_chunks := layoutSplit false c0 0 [10, 90]
  let t0 ← top_chunks.get? 0
  let t1 ← top_chunks.get? 1
  let cursor : Option (Nat × Nat) :=
    match a.input_mode with
    | .Normal => none
    | .Editing => some (t1.x + a.url.length + 1, t1.y + 1)
  let bottom_chunks := layoutSplit false c1 0 [20, 80]
  let b0 ← bottom_chunks.get? 0
  let b1 ← bottom_chunks.get? 1
  let bottom_right_chunks := layoutSplit true b1 0 [90, 10]
  let r0 ← bottom_right_chunks.get? 0
  let r1 ← bottom_right_chunks.get? 1
  let logItems := a.logs.enum.map fun im => toString im.1 ++ ": " ++ im.2
  pure
    { widgets :=
        [(.paragraph "Method" "GET" (windowStyle a.current_window 0 a.input_mode), t0),
         (.paragraph "URL" a.url (get_style a.current_window 1 a.input_mode), t1),
         (.blockOnly "Place Holder" (windowStyle a.current_window 2 a.input_mode), b0),
         (.paragraph "Response" a.response (windowStyle a.current_window 3 a.input_mode), r0),
         (.listWidget "Logs" logItems (windowStyle a.current_window 4 a.input_mode), r1)]
      cursor := cursor }

/-- Substring occurrence on character lists: `needle` occurs contiguously
inside the haystack. -/
def containsSub (needle : List Char) : List Char → Bool
  | [] => needle.isEmpty
  | c :: rest => needle.isPrefixOf (c :: rest) || containsSub needle rest

/-- Modelled from the spec: "prepend a secure-scheme prefix if no scheme
prefix is present" (§4.2). A URL carries a scheme when a scheme separator
"://" occurs in it, as in "http://", "https://", "ftp://"; a bare host
such as "example.com" or "httpbin.org" carries none. -/
def spec_has_scheme (s : String) : Bool :=
  containsSub "://".toList s.toList

/-- Modelled from the spec, for comparison with `normalize_target`: the
normalized target is the url itself when a scheme prefix is present, and
"https://" prepended to it otherwise. -/
def spec_normalize (url : String) : String :=
  if spec_has_scheme url then url else "https://" ++ url

/-- The keys the Editing arm of the §4.1 table handles as text input:
a character key or Backspace. -/
inductive EditKey where
  | ch (c : Char)
  | backspace
deriving DecidableEq, Repr

/-- The key event an Editing-mode text key arrives as. -/
def EditKey.toKeyCode : EditKey → KeyCode
  | .ch c => .Char c
  | .backspace => .Backspace

/-- Push-of-character / pop-of-last-character, the stack semantics the
url field is specified to follow. -/
def editApply (s : String) : EditKey → String
  | .ch c => s.push c
  | .backspace => strPop s

/-- The GET targets occurring in an action trace, in order. -/
def requestTargets (t : List Eff) : List String :=
  t.filterMap fun e =>
    match e with
    | .httpGet target => some target
    | _ => none

/-- Oracle for a dead network: every GET fails with a transport error. -/
def net0 : String → Option String := fun _ => none

/-- Oracle for a formatter that rejects every body. -/
def fmt0 : String → Option String := fun _ => none

/-- Oracle serving the JSON body from the spec's example exchange at the
normalized target of "example.com". -/
def net5 : String → Option String :=
  fun t => if t = "https://example.com" then some "\x7b\"a\":1\x7d" else none

/-- Oracle pretty-printing that JSON body the way the spec displays it. -/
def fmt5 : String → Option String :=
  fun s => if s = "\x7b\"a\":1\x7d" then some "\x7b\n  \"a\": 1\n\x7d" else none

/-! ## Helper lemmas -/

/-- Running the loop on a concatenated event stream: the second part only
runs if the first left the loop pending. -/
theorem run_app_append (net fmt : String → Option String)
    (ks1 ks2 : List KeyCode) (a : App) :
    run_app net fmt a (ks1 ++ ks2) =
      match run_app net fmt a ks1 with
      | .pending a1 => run_app net fmt a1 ks2
      | .quitOk => .quitOk
      | .aborted => .aborted := by
  induction ks1 generalizing a with
  | nil => rfl
  | cons k ks ih =>
    show run_app net fmt a (k :: (ks ++ ks2)) = _
    rw [run_app]
    cases h : step net fmt a k <;> simp [run_app, h, ih]

/-- The Tab arm, read off `step` for a Normal-mode state. -/
theorem step_tab_normal (net fmt : String → Option String) (a : App)
    (hm : a.input_mode = .Normal) :
    step net fmt a .Tab =
      .cont { a with current_window := tabNext a.current_window } [] := by
  obtain ⟨r, m, u, l, w⟩ := a
  cases hm
  rfl

/-- The window arithmetic stays in `[0, 5)`. -/
theorem tabNext_bounds {w : Int} (h0 : 0 ≤ w) (h5 : w < 5) :
    0 ≤ tabNext w ∧ tabNext w < 5 := by
  unfold tabNext
  split <;> omega

/-- Iterating the window arithmetic stays in `[0, 5)`. -/
theorem tabNext_iterate_bounds (n : Nat) {w : Int} (h0 : 0 ≤ w) (h5 : w < 5) :
    0 ≤ tabNext^[n] w ∧ tabNext^[n] w < 5 := by
  induction n generalizing w with
  | zero => simpa using ⟨h0, h5⟩
  | succ n ih =>
    rw [Function.iterate_succ_apply]
    exact ih (tabNext_bounds h0 h5).1 (tabNext_bounds h0 h5).2

/-- Five applications of the window arithmetic are the identity on
`[0, 5)`. -/
theorem tabNext_iterate_five {w : Int} (h0 : 0 ≤ w) (h5 : w < 5) :
    tabNext^[5] w = w := by
  interval_cases w <;> decide

/-- `n` Tab presses from a Normal-mode state leave the loop pending with
the window advanced `n` times and nothing else changed. -/
theorem run_tabs (net fmt : String → Option String) (n : Nat) (a : App)
    (hm : a.input_mode = .Normal) :
    run_app net fmt a (List.replicate n .Tab) =
      .pending { a with current_window := tabNext^[n] a.current_window } := by
  induction n generalizing a with
  | zero => rfl
  | succ n ih =>
    rw [List.replicate_succ]
    show run_app net fmt a (.Tab :: List.replicate n .Tab) = _
    rw [run_app, step_tab_normal net fmt a hm]
    show run_app net fmt { a with current_window := tabNext a.current_window }
      (List.replicate n .Tab) = _
    rw [Function.iterate_succ_apply]
    exact ih { a with current_window := tabNext a.current_window } hm

/-- Any continuing step leaves the window index unchanged or advances it
with the Tab arithmetic. -/
theorem step_cont_window (net fmt : String → Option String)
    {a a1 : App} {k : KeyCode} {t : List Eff}
    (h : step net fmt a k = .cont a1 t) :
    a1.current_window = a.current_window ∨
      a1.current_window = tabNext a.current_window := by
  obtain ⟨r, m, u, l, w⟩ := a
  cases m <;> cases k <;>
    simp only [step] at h
  case Normal.Char c =>
    by_cases hci : c = 'i'
    · rw [if_pos hci] at h
      cases h
      left
      rfl
    · rw [if_neg hci] at h
      by_cases hcq : c = 'q'
      · rw [if_pos hcq] at h
        simp at h
      · rw [if_neg hcq] at h
        cases h
        left
        rfl
  case Normal.Enter =>
    cases hg : get_request net fmt u <;> rw [hg] at h
    · cases h
      left
      rfl
    · simp at h
    · simp at h
  case Normal.Tab =>
    cases h
    right
    rfl
  all_goals
    cases h
    left
    rfl

/-- The window index of every reachable state lies in `[0, 5)`. -/
theorem reachable_window_bounds (net fmt : String → Option String)
    {a : App} (h : Reachable net fmt a) :
    0 ≤ a.current_window ∧ a.current_window < 5 := by
  induction h with
  | init => exact ⟨by decide, by decide⟩
  | next hr hs ih =>
    rcases step_cont_window net fmt hs with he | he
    · rw [he]; exact ih
    · rw [he]; exact tabNext_bounds ih.1 ih.2

/-! ## Claim theorems -/

/-- C9: the startup state has mode Normal, empty url, response and logs,
but `current_window = 1` — the URL panel — rather than index 0: before
any Tab press only panel 1 (the URL paragraph) is highlighted, and the
window index first wraps to 0 after exactly four Tab presses
(1 → 2 → 3 → 4 → 0). -/
theorem initial_state_selects_url_panel (net fmt : String → Option String) :
    App.default.input_mode = .Normal ∧
    App.default.url = "" ∧
    App.default.response = "" ∧
    App.default.logs = [] ∧
    App.default.current_window = 1 ∧
    get_style App.default.current_window 1 App.default.input_mode =
      { fg := some .Cyan } ∧
    get_style App.default.current_window 0 App.default.input_mode =
      Style.default ∧
    windowStyle App.default.current_window 0 App.default.input_mode =
      Style.default ∧
    windowStyle App.default.current_window 2 App.default.input_mode =
      Style.default ∧
    windowStyle App.default.current_window 3 App.default.input_mode =
      Style.default ∧
    windowStyle App.default.current_window 4 App.default.input_mode =
      Style.default ∧
    run_app net fmt App.default (List.replicate 1 .Tab) =
      .pending { App.default with current_window := 2 } ∧
    run_app net fmt App.default (List.replicate 2 .Tab) =
      .pending { App.default with current_window := 3 } ∧
    run_app net fmt App.default (List.replicate 3 .Tab) =
      .pending { App.default with current_window := 4 } ∧
    run_app net fmt App.default (List.replicate 4 .Tab) =
      .pending { App.default with current_window := 0 } :=
  ⟨rfl, rfl, rfl, rfl, rfl, rfl, rfl, rfl, rfl, rfl, rfl, rfl, rfl, rfl, rfl⟩

/-- C10: the normalization check is a literal string-prefix test for
"http", not a scheme test: every url whose text starts with the four
characters "http" — including the scheme-less "httpbin.org" and "httpx" —
is passed through unchanged. -/
theorem http_text_check_passes_through (u : String)
    (h : strStartsWith u "http" = true) :
    normalize_target u = u ∧
    normalize_target "httpbin.org" = "httpbin.org" ∧
    normalize_target "httpx" = "httpx" := by
  refine ⟨?_, rfl, rfl⟩
  unfold normalize_target
  rw [h]
  simp

/-- C10 witness at the concrete input "httpbin.org". -/
theorem http_text_check_passes_through_witness :
    strStartsWith "httpbin.org" "http" = true ∧
    normalize_target "httpbin.org" = "httpbin.org" :=
  ⟨by decide, (http_text_check_passes_through "httpbin.org" (by decide)).1⟩

/-- C4 counterexample: "httpbin.org" carries no scheme prefix, yet the
code leaves it unchanged instead of prepending "https://" — the code's
target disagrees with the spec-worded normalization at this input. -/
theorem normalize_scheme_counterexample :
    spec_has_scheme "httpbin.org" = false ∧
    spec_normalize "httpbin.org" = "https://httpbin.org" ∧
    normalize_target "httpbin.org" = "httpbin.org" ∧
    normalize_target "httpbin.org" ≠ spec_normalize "httpbin.org" :=
  ⟨by decide, by decide, by decide, by decide⟩

/-- C4 amended: normalization prepends "https://" exactly when the url
does not start with the literal four characters "http": "example.com"
becomes "https://example.com", "http://example.com" stays unchanged, and
on Enter in Normal mode the single GET of the step is issued to exactly
that target. -/
theorem normalize_literal_rule (net fmt : String → Option String)
    (r u : String) (l : List String) (w : Int) :
    normalize_target "example.com" = "https://example.com" ∧
    normalize_target "http://example.com" = "http://example.com" ∧
    normalize_target u =
      (if strStartsWith u "http" then u else "https://" ++ u) ∧
    requestTargets (step net fmt (App.mk r .Normal u l w) .Enter).trace =
      [if strStartsWith u "http" then u else "https://" ++ u] := by
  have hn : normalize_target u =
      (if strStartsWith u "http" then u else "https://" ++ u) := by
    unfold normalize_target
    by_cases h : strStartsWith u "http" <;> simp [h]
  refine ⟨by decide, by decide, hn, ?_⟩
  cases hg : get_request net fmt u <;>
    simp [step, hg, StepRes.trace, requestTargets, hn]

/-- C3: processing any sequence of character and Backspace keys in
Editing mode leaves the loop pending in Editing mode with `url` equal to
the left fold of push-of-character / pop-of-last-character over the
initial url, everything else untouched; in particular Backspace on an
empty url is a no-op. -/
theorem editing_url_fold (net fmt : String → Option String)
    (r u : String) (l : List String) (w : Int) (eks : List EditKey) :
    run_app net fmt (App.mk r .Editing u l w) (eks.map EditKey.toKeyCode) =
      .pending (App.mk r .Editing (eks.foldl editApply u) l w) ∧
    step net fmt (App.mk r .Editing "" l w) .Backspace =
      .cont (App.mk r .Editing "" l w) [] := by
  constructor
  · induction eks generalizing u with
    | nil => rfl
    | cons e rest ih =>
      cases e with
      | ch c =>
        show run_app net fmt (App.mk r .Editing u l w)
          (.Char c :: rest.map EditKey.toKeyCode) = _
        rw [run_app]
        show run_app net fmt (App.mk r .Editing (u.push c) l w)
          (rest.map EditKey.toKeyCode) = _
        exact ih (u.push c)
      | backspace =>
        show run_app net fmt (App.mk r .Editing u l w)
          (.Backspace :: rest.map EditKey.toKeyCode) = _
        rw [run_app]
        show run_app net fmt (App.mk r .Editing (strPop u) l w)
          (rest.map EditKey.toKeyCode) = _
        exact ih (strPop u)
  · rfl

/-- C1: the event loop implements exactly the §4.1 table. In Normal mode
the key i switches to Editing, q terminates the loop, Enter issues a GET
(visible in the step trace) while any continuing result keeps mode Normal,
and Tab advances the window; in Editing mode a character key appends to
url, Backspace pops its last character, Esc returns to Normal; every key
not in the table — an unbound character, Backspace, Esc or any other key
in Normal mode, Enter, Tab or any other key in Editing mode — leaves the
whole state unchanged. -/
theorem mode_state_machine (net fmt : String → Option String)
    (r u : String) (l : List String) (w : Int) (c c2 : Char)
    (hci : c ≠ 'i') (hcq : c ≠ 'q') :
    step net fmt (App.mk r .Normal u l w) (.Char 'i') =
      .cont (App.mk r .Editing u l w) [] ∧
    step net fmt (App.mk r .Normal u l w) (.Char 'q') = .quitLoop [] ∧
    Eff.httpGet (normalize_target u) ∈
      (step net fmt (App.mk r .Normal u l w) .Enter).trace ∧
    ((∃ body, get_request net fmt u = .ok body ∧
        step net fmt (App.mk r .Normal u l w) .Enter =
          .cont (App.mk body .Normal u
              (l ++ ["Fetching results...", "Done"]) w)
            [.logAppend "Fetching results...",
             .httpGet (normalize_target u), .logAppend "Done"]) ∨
      step net fmt (App.mk r .Normal u l w) .Enter =
        .fatal [.logAppend "Fetching results...",
                .httpGet (normalize_target u)]) ∧
    step net fmt (App.mk r .Normal u l w) .Tab =
      .cont (App.mk r .Normal u l (tabNext w)) [] ∧
    step net fmt (App.mk r .Normal u l w) (.Char c) =
      .cont (App.mk r .Normal u l w) [] ∧
    step net fmt (App.mk r .Normal u l w) .Backspace =
      .cont (App.mk r .Normal u l w) [] ∧
    step net fmt (App.mk r .Normal u l w) .Esc =
      .cont (App.mk r .Normal u l w) [] ∧
    step net fmt (App.mk r .Normal u l w) .other =
      .cont (App.mk r .Normal u l w) [] ∧
    step net fmt (App.mk r .Editing u l w) (.Char c2) =
      .cont (App.mk r .Editing (u.push c2) l w) [] ∧
    step net fmt (App.mk r .Editing u l w) .Backspace =
      .cont (App.mk r .Editing (strPop u) l w) [] ∧
    step net fmt (App.mk r .Editing u l w) .Esc =
      .cont (App.mk r .Normal u l w) [] ∧
    step net fmt (App.mk r .Editing u l w) .Enter =
      .cont (App.mk r .Editing u l w) [] ∧
    step net fmt (App.mk r .Editing u l w) .Tab =
      .cont (App.mk r .Editing u l w) [] ∧
    step net fmt (App.mk r .Editing u l w) .other =
      .cont (App.mk r .Editing u l w) [] := by
  refine ⟨rfl, rfl, ?_, ?_, rfl, ?_, rfl, rfl, rfl, rfl, rfl, rfl, rfl, rfl,
    rfl⟩
  · cases hg : get_request net fmt u <;>
      simp [step, hg, StepRes.trace]
  · cases hg : get_request net fmt u with
    | ok body =>
      left
      exact ⟨body, rfl, by simp [step, hg]⟩
    | transportErr =>
      right
      simp [step, hg]
    | formatAbort =>
      right
      simp [step, hg]
  · simp [step, hci, hcq]

/-- C1 witness: the unlisted character x in Normal mode leaves the
default state unchanged. -/
theorem mode_state_machine_witness :
    ('x' ≠ 'i' ∧ 'x' ≠ 'q') ∧
    step net0 fmt0 (App.mk "" .Normal "" [] 1) (.Char 'x') =
      .cont (App.mk "" .Normal "" [] 1) [] :=
  ⟨⟨by decide, by decide⟩,
   (mode_state_machine net0 fmt0 "" "" [] 1 'x' 'y' (by decide)
      (by decide)).2.2.2.2.2.1⟩

/-- C5: on Enter in Normal mode, when the GET succeeds with the JSON body
from the spec's example and the formatter pretty-prints it, the response
field is replaced wholesale with the pretty-printed form and exactly two
log entries are appended — and the step's action trace shows the first
log push before the request and the second after it, in that order. -/
theorem enter_success_response_and_logs (net fmt : String → Option String)
    (r u : String) (l : List String) (w : Int) (pretty : String)
    (hnet : net (normalize_target u) = some "\x7b\"a\":1\x7d")
    (hfmt : fmt "\x7b\"a\":1\x7d" = some pretty) :
    step net fmt (App.mk r .Normal u l w) .Enter =
      .cont (App.mk pretty .Normal u
          (l ++ ["Fetching results...", "Done"]) w)
        [.logAppend "Fetching results...",
         .httpGet (normalize_target u), .logAppend "Done"] := by
  have hg : get_request net fmt u = .ok pretty := by
    simp [get_request, hnet, hfmt]
  simp [step, hg]

/-- C5 witness: the example exchange on url "example.com" against the
oracles serving and pretty-printing the spec's JSON body. -/
theorem enter_success_response_and_logs_witness :
    step net5 fmt5 (App.mk "" .Normal "example.com" [] 1) .Enter =
      .cont (App.mk "\x7b\n  \"a\": 1\n\x7d" .Normal "example.com"
          ["Fetching results...", "Done"] 1)
        [.logAppend "Fetching results...",
         .httpGet (normalize_target "example.com"), .logAppend "Done"] :=
  enter_success_response_and_logs net5 fmt5 "" "example.com" [] 1
    "\x7b\n  \"a\": 1\n\x7d" (by decide) (by decide)

/-- C6: a transport error or a formatting error on a request issued by
Enter is fatal: the step aborts the process with no "Done" log and no
error value stored, and however many further key events follow, the loop
never continues past the failed request. -/
theorem request_failure_is_fatal (net fmt : String → Option String)
    (r u : String) (l : List String) (w : Int) (ks : List KeyCode)
    (hfail : net (normalize_target u) = none ∨
      ∃ b, net (normalize_target u) = some b ∧ fmt b = none) :
    step net fmt (App.mk r .Normal u l w) .Enter =
      .fatal [.logAppend "Fetching results...",
              .httpGet (normalize_target u)] ∧
    run_app net fmt (App.mk r .Normal u l w) (.Enter :: ks) = .aborted := by
  have hg : get_request net fmt u = .transportErr ∨
      get_request net fmt u = .formatAbort := by
    rcases hfail with h | ⟨b, h1, h2⟩
    · left
      simp [get_request, h]
    · right
      simp [get_request, h1, h2]
  have hstep : step net fmt (App.mk r .Normal u l w) .Enter =
      .fatal [.logAppend "Fetching results...",
              .httpGet (normalize_target u)] := by
    rcases hg with h | h <;> simp [step, h]
  refine ⟨hstep, ?_⟩
  rw [run_app, hstep]

/-- C6 witness: a dead network aborts the loop on Enter even with a quit
key still queued behind it. -/
theorem request_failure_is_fatal_witness :
    (net0 (normalize_target "example.com") = none ∨
      ∃ b, net0 (normalize_target "example.com") = some b ∧
        fmt0 b = none) ∧
    run_app net0 fmt0 (App.mk "" .Normal "example.com" [] 1)
      [.Enter, .Char 'q'] = .aborted :=
  ⟨Or.inl rfl,
   (request_failure_is_fatal net0 fmt0 "" "example.com" [] 1 [.Char 'q']
      (Or.inl rfl)).2⟩

/-- C7: after any history of key events that leaves the loop live in
Normal mode, pressing q terminates `run_app` with `Ok(())`, and `main`
then executes the four-action terminal-restoration sequence (disable raw
mode, leave the alternate screen, disable mouse capture, show the cursor)
exactly once. -/
theorem quit_terminates_and_restores (net fmt : String → Option String)
    (ks : List KeyCode) (a : App)
    (hrun : run_app net fmt App.default ks = .pending a)
    (hmode : a.input_mode = .Normal) :
    run_app net fmt App.default (ks ++ [.Char 'q']) = .quitOk ∧
    main_teardown (run_app net fmt App.default (ks ++ [.Char 'q'])) =
      [.disableRawMode, .leaveAlternateScreen, .disableMouseCapture,
       .showCursor] := by
  have h1 : run_app net fmt App.default (ks ++ [.Char 'q']) = .quitOk := by
    rw [run_app_append, hrun]
    obtain ⟨r, m, u, l, w⟩ := a
    cases hmode
    rfl
  exact ⟨h1, by rw [h1]; rfl⟩

/-- C7 witness: quitting immediately from the startup state. -/
theorem quit_terminates_and_restores_witness :
    run_app net0 fmt0 App.default ([] ++ [.Char 'q']) = .quitOk ∧
    main_teardown (run_app net0 fmt0 App.default ([] ++ [.Char 'q'])) =
      [.disableRawMode, .leaveAlternateScreen, .disableMouseCapture,
       .showCursor] :=
  quit_terminates_and_restores net0 fmt0 [] App.default rfl rfl

/-- C2: from any reachable Normal-mode state, any number of Tab presses
leaves the loop pending with the window index still in `[0, 5)` (the
panel count is 5), and exactly five Tab presses bring the window index
back to its starting value. -/
theorem tab_cycle_period_five (net fmt : String → Option String)
    (a : App) (n : Nat) (hreach : Reachable net fmt a)
    (hmode : a.input_mode = .Normal) :
    (∃ a1, run_app net fmt a (List.replicate n .Tab) = .pending a1 ∧
      0 ≤ a1.current_window ∧ a1.current_window < 5) ∧
    ∃ a5, run_app net fmt a (List.replicate 5 .Tab) = .pending a5 ∧
      a5.current_window = a.current_window := by
  have hw := reachable_window_bounds net fmt hreach
  constructor
  · refine ⟨_, run_tabs net fmt n a hmode, ?_, ?_⟩
    · exact (tabNext_iterate_bounds n hw.1 hw.2).1
    · exact (tabNext_iterate_bounds n hw.1 hw.2).2
  · refine ⟨_, run_tabs net fmt 5 a hmode, ?_⟩
    exact tabNext_iterate_five hw.1 hw.2

/-- C2 witness: two then five Tab presses from the startup state. -/
theorem tab_cycle_period_five_witness :
    (∃ a1, run_app net0 fmt0 App.default (List.replicate 2 .Tab) =
        .pending a1 ∧ 0 ≤ a1.current_window ∧ a1.current_window < 5) ∧
    ∃ a5, run_app net0 fmt0 App.default (List.replicate 5 .Tab) =
      .pending a5 ∧ a5.current_window = App.default.current_window :=
  tab_cycle_period_five net0 fmt0 App.default 2 Reachable.init rfl

/-- C8: the renderer is a pure total function of the application state
and the frame area: it is well-defined (it draws, and its chunk indexing
cannot fail) at every state — any mode, any window index, any url,
response or log contents — and equal states always produce the same
drawn output. -/
theorem ui_total_and_deterministic (a b : App) (size : Rect) :
    (∃ out, ui a size = some out) ∧ (a = b → ui a size = ui b size) := by
  constructor
  · exact ⟨_, rfl⟩
  · intro h
    rw [h]

/-- C8 witness: the renderer on the startup state in an 80x24 frame. -/
theorem ui_total_and_deterministic_witness :
    (∃ out, ui App.default (Rect.mk 0 0 80 24) = some out) ∧
    ui App.default (Rect.mk 0 0 80 24) =
      ui App.default (Rect.mk 0 0 80 24) :=
  ⟨(ui_total_and_deterministic App.default App.default
      (Rect.mk 0 0 80 24)).1,
   (ui_total_and_deterministic App.default App.default
      (Rect.mk 0 0 80 24)).2 rfl⟩
